import Mathlib

/-!
Shallow embedding of the PocketBase media-processing hooks
(`pb_hooks` media module): rate limiting, upload validation,
EXIF metadata extraction, the per-record processing pipeline,
and approval propagation.  Each definition mirrors the
corresponding JavaScript function; JavaScript numbers used as
millisecond timestamps are modelled as `Int`, counters as `Nat`,
and fractional second counts as `ℚ`.  JavaScript falsiness of
the relevant values (empty string, zero, null) is modelled
explicitly at each use site.
-/

namespace Spomienka

/-! ### Rate limiting (`checkRateLimit`, `RATE_LIMITS`, `rateLimitStore`) -/

/-- The three action classes of `rateLimitStore` / `RATE_LIMITS`. -/
inductive ActionClass
  | login
  | upload
  | api
deriving DecidableEq

/-- One entry of `RATE_LIMITS`: a ceiling and a window length in milliseconds. -/
structure RateLimit where
  max : Nat
  windowMs : Int
deriving DecidableEq

/-- The `RATE_LIMITS` table: login 5/min, upload 10/min, api 100/min. -/
def RATE_LIMITS : ActionClass → RateLimit
  | .login => { max := 5, windowMs := 60000 }
  | .upload => { max := 10, windowMs := 60000 }
  | .api => { max := 100, windowMs := 60000 }

/-- One value of a `rateLimitStore[type]` map: `{ count, resetAt }`. -/
structure Entry where
  count : Nat
  resetAt : Int
deriving DecidableEq

/-- One `rateLimitStore[type]` map, keyed by IP or user id; `none` models
an absent key. -/
def Store : Type := String → Option Entry

/-- Functional update of a store at one key, modelling `store[key] = e`. -/
def updateStore (store : Store) (key : String) (e : Entry) : Store :=
  fun k => if k = key then some e else store k

/-- The probabilistic cleanup loop inside `checkRateLimit`: every entry
with `resetAt < now` is deleted. -/
def pruneStore (now : Int) (store : Store) : Store :=
  fun k =>
    match store k with
    | some e => if e.resetAt < now then none else some e
    | none => none

/-- `checkRateLimit(type, key)` for one action class.  `doPrune` models the
`Math.random() < 0.1` coin that decides whether the cleanup loop runs;
`now` models `Date.now()`.  Returns the boolean result together with the
updated store. -/
def checkRateLimit (limit : RateLimit) (doPrune : Bool) (now : Int)
    (key : String) (store : Store) : Bool × Store :=
  let store := if doPrune then pruneStore now store else store
  match store key with
  | none => (true, updateStore store key { count := 1, resetAt := now + limit.windowMs })
  | some e =>
      if e.resetAt < now then
        (true, updateStore store key { count := 1, resetAt := now + limit.windowMs })
      else
        (decide (e.count + 1 ≤ limit.max),
         updateStore store key { count := e.count + 1, resetAt := e.resetAt })

/-- A sequence of `checkRateLimit` calls for one key: each list element
carries the prune coin and the call's `Date.now()` value.  Returns the
list of boolean results and the final store. -/
def runCalls (limit : RateLimit) (key : String) :
    List (Bool × Int) → Store → List Bool × Store
  | [], store => ([], store)
  | (p, t) :: rest, store =>
      let step := checkRateLimit limit p t key store
      let next := runCalls limit key rest step.2
      (step.1 :: next.1, next.2)

/-! ### Upload validation (`validateFileType` and the extension allow-lists) -/

/-- `ALLOWED_IMAGE_EXTENSIONS`. -/
def ALLOWED_IMAGE_EXTENSIONS : List String :=
  [".jpg", ".jpeg", ".png", ".gif", ".webp"]

/-- `ALLOWED_VIDEO_EXTENSIONS`. -/
def ALLOWED_VIDEO_EXTENSIONS : List String :=
  [".mp4", ".mov", ".avi", ".mpeg", ".m4v", ".mkv"]

/-- `ALLOWED_EXTENSIONS = [...images, ...videos]`. -/
def ALLOWED_EXTENSIONS : List String :=
  ALLOWED_IMAGE_EXTENSIONS ++ ALLOWED_VIDEO_EXTENSIONS

/-- JavaScript `String.prototype.toLowerCase` restricted to the basic
latin range, per character: exactly `Char.toLower`. -/
def toLowerStr (s : String) : String :=
  ⟨s.data.map Char.toLower⟩

/-- JavaScript `String.prototype.lastIndexOf` for a single character:
index of the last occurrence, `-1` if absent.  `i` is the index of the
head of the remaining list, `acc` the best index seen so far. -/
def lastIdxAux (c : Char) : List Char → Nat → Int → Int
  | [], _, acc => acc
  | x :: xs, i, acc => lastIdxAux c xs (i + 1) (if x = c then (i : Int) else acc)

/-- `fileName.lastIndexOf(c)`. -/
def lastIndexOfChar (l : List Char) (c : Char) : Int :=
  lastIdxAux c l 0 (-1)

/-- JavaScript `String.prototype.substring(start)`: a negative start is
clamped to `0`, then the first `start` characters are dropped. -/
def jsSubstringFrom (s : String) (i : Int) : String :=
  ⟨s.data.drop i.toNat⟩

/-- The extension computed by `validateFileType`:
`fileName.toLowerCase().substring(fileName.lastIndexOf('.')).toLowerCase()`.
If the name has no dot this is the whole lowercased name. -/
def fileExt (fileName : String) : String :=
  toLowerStr (jsSubstringFrom (toLowerStr fileName) (lastIndexOfChar fileName.data '.'))

/-- The `{ valid, error }` object returned by `validateFileType`. -/
structure FileValidation where
  valid : Bool
  error : Option String
deriving DecidableEq

/-- `validateFileType(fileName, declaredType)`.  The guard
`!fileName || typeof fileName !== 'string'` reduces, for string input,
to the empty-name check. -/
def validateFileType (fileName declaredType : String) : FileValidation :=
  if fileName = "" then
    { valid := false, error := some "Invalid filename" }
  else
    let ext := fileExt fileName
    if ¬ ALLOWED_EXTENSIONS.contains ext then
      { valid := false, error := some ("File extension " ++ ext ++ " is not allowed") }
    else
      let isImageExt := ALLOWED_IMAGE_EXTENSIONS.contains ext
      let isVideoExt := ALLOWED_VIDEO_EXTENSIONS.contains ext
      if declaredType = "image" ∧ ¬ isImageExt then
        { valid := false,
          error := some ("File extension " ++ ext ++ " does not match declared type \x27image\x27") }
      else if declaredType = "video" ∧ ¬ isVideoExt then
        { valid := false,
          error := some ("File extension " ++ ext ++ " does not match declared type \x27video\x27") }
      else
        { valid := true, error := none }

/-! ### EXIF metadata extraction (`extractExif`) -/

/-- One digit's value, `none` for a non-digit; used by the models of
JavaScript `parseInt` and `parseFloat`. -/
def digitVal (c : Char) : Option Nat :=
  if '0' ≤ c ∧ c ≤ '9' then some (c.toNat - 48) else none

/-- The longest digit run at the head of the list. -/
def takeDigits : List Char → List Nat
  | [] => []
  | c :: cs =>
      match digitVal c with
      | some d => d :: takeDigits cs
      | none => []

/-- Decimal value of a digit list. -/
def natOfDigits (ds : List Nat) : Nat :=
  ds.foldl (fun a d => a * 10 + d) 0

/-- JavaScript `parseInt(s)` on the nonnegative decimal strings produced
by exiftool: the leading digit run, `none` when there is none (`NaN`). -/
def parseIntJS (s : String) : Option Nat :=
  let ds := takeDigits s.data
  if ds = [] then none else some (natOfDigits ds)

/-- JavaScript `parseFloat(s)` on the nonnegative decimal strings produced
by exiftool and ffprobe: leading `digits[.digits]`, trailing characters
ignored, `none` when no number can be read (`NaN`). -/
def parseFloatJS (s : String) : Option ℚ :=
  let l := s.data
  let intDs := takeDigits l
  let rest := l.drop intDs.length
  match rest.head? with
  | some c =>
      if c = '.' then
        let fracDs := takeDigits rest.tail
        if intDs = [] ∧ fracDs = [] then none
        else some ((natOfDigits intDs : ℚ) + (natOfDigits fracDs : ℚ) / (10 : ℚ) ^ fracDs.length)
      else if intDs = [] then none else some ((natOfDigits intDs : ℚ))
  | none => if intDs = [] then none else some ((natOfDigits intDs : ℚ))

/-- JavaScript `String.prototype.split` with a one-character separator,
over character lists: `""` splits to `[""]`, separators delimit possibly
empty fields. -/
def splitOnCharAux (sep : Char) : List Char → List (List Char)
  | [] => [[]]
  | c :: cs =>
      match splitOnCharAux sep cs with
      | [] => if c = sep then [[], [c]] else [[c]]
      | h :: t => if c = sep then [] :: h :: t else (c :: h) :: t

/-- JavaScript `s.split(sep)` for a one-character separator. -/
def jsSplit (s : String) (sep : Char) : List String :=
  (splitOnCharAux sep s.data).map (fun l => ⟨l⟩)

/-- Replace the first occurrence of `a` by `b`, as JavaScript
`String.prototype.replace` with a plain-string pattern does. -/
def replaceFirstChar : List Char → Char → Char → List Char
  | [], _, _ => []
  | c :: cs, a, b => if c = a then b :: cs else c :: replaceFirstChar cs a b

/-- The `DateTimeOriginal` conversion inside `extractExif`:
`value.replace(/:/g, "-").replace(" ", "T")` — every colon becomes a
hyphen (the regex is global), then the first space becomes `T`. -/
def normalizeTakenAt (s : String) : String :=
  ⟨replaceFirstChar (s.data.map (fun c => if c = ':' then '-' else c)) ' ' 'T'⟩

/-- A JSON value found in the exiftool `Duration` field: either a string
or a number. -/
inductive DurVal
  | str (s : String)
  | num (q : ℚ)
deriving DecidableEq

/-- The colon-delimited branch of the duration conversion: `H:MM:SS` and
`MM:SS` via `parseInt`/`parseFloat`; any other shape leaves the local
`seconds` variable at `0`.  `none` models a `NaN` result. -/
def colonToSeconds (parts : List String) : Option ℚ :=
  match parts with
  | [h, m, s] => do
      let hv ← parseIntJS h
      let mv ← parseIntJS m
      let sv ← parseFloatJS s
      pure ((hv : ℚ) * 3600 + (mv : ℚ) * 60 + sv)
  | [m, s] => do
      let mv ← parseIntJS m
      let sv ← parseFloatJS s
      pure ((mv : ℚ) * 60 + sv)
  | _ => some 0

/-- The duration conversion inside `extractExif`: a string containing a
colon is split and combined positionally, anything else goes through
`parseFloat`. -/
def parseDurVal : DurVal → Option ℚ
  | .str s => if s.data.contains ':' then colonToSeconds (jsSplit s ':') else parseFloatJS s
  | .num q => some q

/-- JavaScript truthiness of a possibly absent `Duration` value: absent,
the empty string and the number `0` are falsy. -/
def truthyDur : Option DurVal → Bool
  | none => false
  | some (.str s) => decide (s ≠ "")
  | some (.num q) => decide (q ≠ 0)

/-- `x || null` for a numeric field: `0` and absent collapse to `none`. -/
def orNullInt : Option Int → Option Int
  | some v => if v = 0 then none else some v
  | none => none

/-- `x || null` for a string field: `""` and absent collapse to `none`. -/
def orNullStr : Option String → Option String
  | some s => if s = "" then none else some s
  | none => none

/-- The fields read from `data[0]` of exiftool's JSON output. -/
structure RawExif where
  imageWidth : Option Int
  imageHeight : Option Int
  orientation : Option String
  dateTimeOriginal : Option String
  duration : Option DurVal
deriving DecidableEq

/-- The result object of `extractExif`. -/
structure ExifData where
  width : Option Int
  height : Option Int
  orientation : Option String
  takenAt : Option String
  duration : Option ℚ
deriving DecidableEq

/-- `extractExif(filePath)`.  `raw = none` models every swallowed failure
(exiftool failed, empty output, no `data[0]`): all fields stay `null`. -/
def extractExif (raw : Option RawExif) : ExifData :=
  match raw with
  | none => { width := none, height := none, orientation := none, takenAt := none, duration := none }
  | some exif =>
      { width := orNullInt exif.imageWidth
        height := orNullInt exif.imageHeight
        orientation := orNullStr exif.orientation
        takenAt :=
          match exif.dateTimeOriginal with
          | some d => if d ≠ "" then some (normalizeTakenAt d) else none
          | none => none
        duration :=
          match exif.duration with
          | some dv => if truthyDur (some dv) then parseDurVal dv else none
          | none => none }

/-! ### The media record and the processing pipeline -/

/-- A `media` record, with the fields the hooks read and write.
`file = ""` models a record with no attached file (`record.get("file")`
falsy); the processing and publication statuses are the literal strings
the hooks store. -/
structure MediaRecord where
  id : String
  collectionId : String
  file : String
  mediaType : String
  status : String
  approvedBy : String
  owner : String
  width : Option Int
  height : Option Int
  orientation : Option String
  takenAt : Option String
  duration : Option ℚ
  checksum : Option String
  processingStatus : String
  processingError : Option String
  displayUrl : Option String
  blurUrl : Option String
  thumbUrl : Option String
  videoUrl : Option String
  posterUrl : Option String
deriving DecidableEq

/-- `buildFileUrl(collectionId, recordId, fileName)`. -/
def buildFileUrl (collectionId recordId fileName : String) : String :=
  "/api/files/" ++ collectionId ++ "/" ++ recordId ++ "/" ++ fileName

/-- The EXIF block of `processMediaRecord`: each field is copied onto the
record only when truthy (`if (exifData.width) record.set(...)` etc.). -/
def applyExif (exif : ExifData) (r : MediaRecord) : MediaRecord :=
  let r := match exif.width with
    | some w => if w ≠ 0 then { r with width := some w } else r
    | none => r
  let r := match exif.height with
    | some h => if h ≠ 0 then { r with height := some h } else r
    | none => r
  let r := match exif.orientation with
    | some o => if o ≠ "" then { r with orientation := some o } else r
    | none => r
  match exif.takenAt with
  | some t => if t ≠ "" then { r with takenAt := some t } else r
  | none => r

/-- `generateChecksum(filePath)`: the first space-separated word of the
`sha256sum` output; `none` when the command failed or printed nothing. -/
def generateChecksum (out : Option String) : Option String :=
  match out with
  | some o => if o ≠ "" then some ((jsSplit o ' ').headD "") else none
  | none => none

/-- Success or failure of the three `ffmpeg` invocations of
`processImage`, one flag per derivative's own try/catch boundary. -/
structure ImageOutcome where
  displayOk : Bool
  blurOk : Bool
  thumbOk : Bool
deriving DecidableEq

/-- JavaScript `s.trim()`: strip leading and trailing whitespace. -/
def jsTrim (s : String) : String :=
  ⟨((s.data.dropWhile Char.isWhitespace).reverse.dropWhile Char.isWhitespace).reverse⟩

/-- Outcomes of the external invocations of `processVideo`:
the ffprobe stdout (`none` when it threw), and one flag per
ffmpeg/stat step. -/
structure VideoOutcome where
  durationProbe : Option String
  transcodeOk : Bool
  posterExecOk : Bool
  posterStatOk : Bool
  blurExecOk : Bool
  thumbOk : Bool
deriving DecidableEq

/-- The five filename markers of the failure cleanup pass:
`["display_", "blur_", "thumb_", "video_", "poster_"]`. -/
def derivedMarkers : List String :=
  ["display_", "blur_", "thumb_", "video_", "poster_"]

/-- JavaScript `f.startsWith(d)`, over the character lists. -/
def jsStartsWith (f d : String) : Bool :=
  d.data.isPrefixOf f.data

/-- Whether a stored file name starts with one of the derivative markers. -/
def isDerivedFile (f : String) : Bool :=
  derivedMarkers.any (fun d => jsStartsWith f d)

/-- The cleanup pass run when processing failed: every file whose name
starts with a derivative marker is removed from the storage directory. -/
def cleanupStorage (files : List String) : List String :=
  files.filter (fun f => ¬ isDerivedFile f)

/-- `processImage(record, originalPath, procDir, storagePath)`: the three
derivatives are attempted independently; each success renames the scratch
file into storage and sets the corresponding URL field.  The storage
directory is modelled as the list of file names it holds. -/
def processImage (o : ImageOutcome) (r : MediaRecord) (storage : List String) :
    MediaRecord × List String :=
  let st :=
    if o.displayOk then
      let fn := "display_" ++ r.id ++ ".jpg"
      ({ r with displayUrl := some (buildFileUrl r.collectionId r.id fn) }, fn :: storage)
    else (r, storage)
  let st :=
    if o.blurOk then
      let fn := "blur_" ++ st.1.id ++ ".jpg"
      ({ st.1 with blurUrl := some (buildFileUrl st.1.collectionId st.1.id fn) }, fn :: st.2)
    else st
  if o.thumbOk then
    let fn := "thumb_" ++ st.1.id ++ ".jpg"
    ({ st.1 with thumbUrl := some (buildFileUrl st.1.collectionId st.1.id fn) }, fn :: st.2)
  else st

/-- `processVideo(record, originalPath, procDir, storagePath)`: duration
probe, transcode, poster (verified by a stat before the rename), blur
from the stored poster (only attempted when the poster was verified, and
only after a second stat of the stored poster), thumbnail. -/
def processVideo (o : VideoOutcome) (r : MediaRecord) (storage : List String) :
    MediaRecord × List String :=
  let r :=
    match o.durationProbe with
    | some out => if out ≠ "" then { r with duration := parseFloatJS (jsTrim out) } else r
    | none => r
  let st :=
    if o.transcodeOk then
      let fn := "video_" ++ r.id ++ ".mp4"
      ({ r with videoUrl := some (buildFileUrl r.collectionId r.id fn) }, fn :: storage)
    else (r, storage)
  let posterCreated := o.posterExecOk && o.posterStatOk
  let st :=
    if posterCreated then
      let fn := "poster_" ++ st.1.id ++ ".jpg"
      ({ st.1 with posterUrl := some (buildFileUrl st.1.collectionId st.1.id fn) }, fn :: st.2)
    else st
  let st :=
    if posterCreated then
      if st.2.contains ("poster_" ++ st.1.id ++ ".jpg") && o.blurExecOk then
        let fn := "blur_" ++ st.1.id ++ ".jpg"
        ({ st.1 with blurUrl := some (buildFileUrl st.1.collectionId st.1.id fn) }, fn :: st.2)
      else st
    else st
  if o.thumbOk then
    let fn := "thumb_" ++ st.1.id ++ ".jpg"
    ({ st.1 with thumbUrl := some (buildFileUrl st.1.collectionId st.1.id fn) }, fn :: st.2)
  else st

/-- Outcomes of the external calls a single `processMediaRecord` run makes:
exiftool's parsed JSON, sha256sum's stdout, and the per-step derivative
outcomes.  The duplicate-checksum query is omitted: the source only logs
its result. -/
structure PipelineWorld where
  rawExif : Option RawExif
  checksumOut : Option String
  img : ImageOutcome
  vid : VideoOutcome
deriving DecidableEq

/-- `processMediaRecord(record)`, with the storage directory threaded
explicitly.  A record with no attached file hits the
`throw new Error("No file attached to media record")` guard, which the
outer catch turns into the `failed` status, the saved error message, and
the derivative cleanup pass.  Otherwise the stages run in order and the
record ends `completed` whatever the per-derivative outcomes were. -/
def processMediaRecord (w : PipelineWorld) (r0 : MediaRecord) (storage : List String) :
    MediaRecord × List String :=
  let r := { r0 with processingStatus := "processing" }
  if r.file = "" then
    ({ r with
        processingStatus := "failed"
        processingError := some "No file attached to media record" },
     cleanupStorage storage)
  else
    let r := applyExif (extractExif w.rawExif) r
    let r :=
      match generateChecksum w.checksumOut with
      | some c => { r with checksum := some c }
      | none => r
    let st :=
      if r.mediaType = "image" then processImage w.img r storage
      else if r.mediaType = "video" then processVideo w.vid r storage
      else (r, storage)
    ({ st.1 with processingStatus := "completed", processingError := none }, st.2)

/-! ### Approval propagation (the `approvals` after-create hook) -/

/-- An `approvals` record: decision status, referenced media id
(`"" ` models a falsy reference), reviewer, and the review timestamp. -/
structure Approval where
  id : String
  status : String
  media : String
  reviewer : String
  reviewedAt : Option String
deriving DecidableEq

/-- The `approvals` after-create hook.  `find` models
`$app.dao().findRecordById("media", mediaId)`, with `none` for the thrown
not-found error (caught and logged).  Returns the saved approval and the
saved media record, `none` when no media record was written. -/
def onApprovalAfterCreate (find : String → Option MediaRecord)
    (approval : Approval) (nowIso : String) : Approval × Option MediaRecord :=
  if approval.status = "approved" ∧ approval.media ≠ "" then
    match find approval.media with
    | some m =>
        ({ approval with reviewedAt := some nowIso },
         some { m with status := "published", approvedBy := approval.reviewer })
    | none => (approval, none)
  else if approval.status = "rejected" ∧ approval.media ≠ "" then
    match find approval.media with
    | some m =>
        ({ approval with reviewedAt := some nowIso },
         some { m with status := "rejected" })
    | none => (approval, none)
  else (approval, none)

/-- A sample freshly created image record. -/
def sampleImage : MediaRecord :=
  { id := "r1", collectionId := "c1", file := "a.jpg", mediaType := "image",
    status := "pending", approvedBy := "", owner := "u1",
    width := none, height := none, orientation := none, takenAt := none,
    duration := none, checksum := none, processingStatus := "pending",
    processingError := none, displayUrl := none, blurUrl := none,
    thumbUrl := none, videoUrl := none, posterUrl := none }

/-- A sample record with no attached file. -/
def sampleNoFile : MediaRecord :=
  { sampleImage with id := "r2", file := "" }

/-- A sample world: exiftool and sha256sum fail, display and thumbnail
succeed, blur fails, video steps all fail. -/
def sampleWorld : PipelineWorld :=
  { rawExif := none, checksumOut := none,
    img := { displayOk := true, blurOk := false, thumbOk := true },
    vid := { durationProbe := none, transcodeOk := false, posterExecOk := false,
             posterStatOk := false, blurExecOk := false, thumbOk := false } }

/-- A sample media record referenced by the sample approvals. -/
def sampleMedia : MediaRecord :=
  { sampleImage with id := "m1", status := "pending", approvedBy := "admin0" }

/-- A sample record store that knows only the sample media record. -/
def sampleFind : String → Option MediaRecord :=
  fun i => if i = "m1" then some sampleMedia else none

/-- A sample approved decision for the sample media record. -/
def sampleApproved : Approval :=
  { id := "a1", status := "approved", media := "m1", reviewer := "rev1", reviewedAt := none }

/-- A sample rejected decision for the sample media record. -/
def sampleRejected : Approval :=
  { id := "a2", status := "rejected", media := "m1", reviewer := "rev2", reviewedAt := none }

/-- A `RawExif` carrying only a `Duration` value. -/
def rawWithDuration (d : DurVal) : RawExif :=
  { imageWidth := none, imageHeight := none, orientation := none,
    dateTimeOriginal := none, duration := some d }

/-- A `RawExif` carrying only a `DateTimeOriginal` value. -/
def rawWithTakenAt (d : String) : RawExif :=
  { imageWidth := none, imageHeight := none, orientation := none,
    dateTimeOriginal := some d, duration := none }

/-! ### Rate limiting: lemmas and claims -/

/-- Every configured ceiling is at least one. -/
theorem one_le_rate_max (cls : ActionClass) : 1 ≤ (RATE_LIMITS cls).max := by
  cases cls <;> decide

/-- A call on a key with no live entry (absent, or expired relative to the
call time) opens a fresh window: it returns `true` and stores count `1`
with reset instant `now + windowMs`, whether or not the cleanup ran. -/
theorem checkRateLimit_start (limit : RateLimit) (p : Bool) (t : Int) (key : String)
    (store : Store)
    (h : store key = none ∨ ∃ e, store key = some e ∧ e.resetAt < t) :
    (checkRateLimit limit p t key store).1 = true ∧
    (checkRateLimit limit p t key store).2 key =
      some { count := 1, resetAt := t + limit.windowMs } := by
  rcases h with h | ⟨e, he, hlt⟩
  · cases p <;> simp [checkRateLimit, pruneStore, updateStore, h]
  · cases p <;> simp [checkRateLimit, pruneStore, updateStore, he, hlt]

/-- A run of calls all strictly before the stored reset instant keeps the
reset instant, increments the counter once per call, and answers the
`i`-th call (0-indexed) with `count + i + 1 ≤ max`. -/
theorem runCalls_inWindow (limit : RateLimit) (key : String) :
    ∀ (calls : List (Bool × Int)) (store : Store) (c : Nat) (R : Int),
      store key = some { count := c, resetAt := R } →
      (∀ pt ∈ calls, pt.2 < R) →
      (runCalls limit key calls store).2 key =
        some { count := c + calls.length, resetAt := R } ∧
      ∀ i (h : i < (runCalls limit key calls store).1.length),
        (runCalls limit key calls store).1.get ⟨i, h⟩ = decide (c + i + 1 ≤ limit.max)
  | [], store, c, R, hkey, _ => by
      refine ⟨by simpa [runCalls] using hkey, ?_⟩
      intro i h
      simp [runCalls] at h
  | (p, t) :: rest, store, c, R, hkey, hin => by
      have ht : t < R := hin (p, t) (List.mem_cons_self _ _)
      have hstep1 : (checkRateLimit limit p t key store).1 = decide (c + 1 ≤ limit.max) := by
        cases p <;>
          simp [checkRateLimit, pruneStore, updateStore, hkey, Int.not_lt.mpr (Int.le_of_lt ht)]
      have hstep2 : (checkRateLimit limit p t key store).2 key =
          some { count := c + 1, resetAt := R } := by
        cases p <;>
          simp [checkRateLimit, pruneStore, updateStore, hkey, Int.not_lt.mpr (Int.le_of_lt ht)]
      have ih := runCalls_inWindow limit key rest ((checkRateLimit limit p t key store).2)
        (c + 1) R hstep2 (fun pt hpt => hin pt (List.mem_cons_of_mem _ hpt))
      constructor
      · have : (runCalls limit key ((p, t) :: rest) store).2 =
            (runCalls limit key rest ((checkRateLimit limit p t key store).2)).2 := rfl
        rw [this, ih.1]
        have : c + 1 + rest.length = c + ((p, t) :: rest).length := by
          simp
          omega
        rw [this]
      · intro i h
        match i with
        | 0 => simpa [runCalls] using hstep1
        | j + 1 =>
            have hj : j < (runCalls limit key rest ((checkRateLimit limit p t key store).2)).1.length := by
              simpa [runCalls] using h
            have := ih.2 j hj
            have heq : c + 1 + j + 1 = c + (j + 1) + 1 := by omega
            simpa [runCalls, heq] using this

/-- C1: for every action class (login ceiling 5, upload 10, api 100) and
key, a first call that opens a window followed by calls all strictly
before that window's reset instant answers the `i`-th call (1-indexed)
`true` exactly for `i ≤ max` — so the first `max` calls succeed and the
`(max+1)`-th fails — and the first call strictly after the reset instant
returns `true` and leaves the key's counter at `1`. -/
theorem rate_limit_fixed_window (cls : ActionClass) (key : String) (p₁ : Bool) (t₁ : Int)
    (store₀ : Store)
    (hstart : store₀ key = none ∨ ∃ e, store₀ key = some e ∧ e.resetAt < t₁)
    (rest : List (Bool × Int))
    (hin : ∀ pt ∈ rest, pt.2 < t₁ + (RATE_LIMITS cls).windowMs) :
    (∀ i (h : i < (runCalls (RATE_LIMITS cls) key ((p₁, t₁) :: rest) store₀).1.length),
        (runCalls (RATE_LIMITS cls) key ((p₁, t₁) :: rest) store₀).1.get ⟨i, h⟩ =
          decide (i + 1 ≤ (RATE_LIMITS cls).max)) ∧
    ∀ (p' : Bool) (t' : Int), t₁ + (RATE_LIMITS cls).windowMs < t' →
      (checkRateLimit (RATE_LIMITS cls) p' t' key
          (runCalls (RATE_LIMITS cls) key ((p₁, t₁) :: rest) store₀).2).1 = true ∧
      (checkRateLimit (RATE_LIMITS cls) p' t' key
          (runCalls (RATE_LIMITS cls) key ((p₁, t₁) :: rest) store₀).2).2 key =
        some { count := 1, resetAt := t' + (RATE_LIMITS cls).windowMs } := by
  have hfirst := checkRateLimit_start (RATE_LIMITS cls) p₁ t₁ key store₀ hstart
  have hrun := runCalls_inWindow (RATE_LIMITS cls) key rest
    ((checkRateLimit (RATE_LIMITS cls) p₁ t₁ key store₀).2) 1
    (t₁ + (RATE_LIMITS cls).windowMs) hfirst.2 hin
  constructor
  · intro i h
    match i with
    | 0 => simpa [runCalls] using hfirst.1.trans (by
        have := one_le_rate_max cls
        simp [this])
    | j + 1 =>
        have hj : j < (runCalls (RATE_LIMITS cls) key rest
            ((checkRateLimit (RATE_LIMITS cls) p₁ t₁ key store₀).2)).1.length := by
          simpa [runCalls] using h
        have := hrun.2 j hj
        have heq : 1 + j + 1 = j + 1 + 1 := by omega
        simpa [runCalls, heq] using this
  · intro p' t' ht'
    have hfin : (runCalls (RATE_LIMITS cls) key ((p₁, t₁) :: rest) store₀).2 key =
        some { count := 1 + rest.length, resetAt := t₁ + (RATE_LIMITS cls).windowMs } := by
      simpa [runCalls] using hrun.1
    exact checkRateLimit_start (RATE_LIMITS cls) p' t' key _ (Or.inr ⟨_, hfin, ht'⟩)

/-- Witness for C1: six login calls inside the window opened at time 0
(ceiling 5), then a call strictly after the reset instant. -/
theorem rate_limit_fixed_window_witness :
    (checkRateLimit (RATE_LIMITS ActionClass.login) true 70000 "k"
        (runCalls (RATE_LIMITS ActionClass.login) "k"
          [(false, 0), (false, 1), (false, 2), (false, 3), (false, 4), (false, 5)]
          (fun _ => none)).2).1 = true ∧
    (checkRateLimit (RATE_LIMITS ActionClass.login) true 70000 "k"
        (runCalls (RATE_LIMITS ActionClass.login) "k"
          [(false, 0), (false, 1), (false, 2), (false, 3), (false, 4), (false, 5)]
          (fun _ => none)).2).2 "k" =
      some { count := 1, resetAt := 70000 + (RATE_LIMITS ActionClass.login).windowMs } := by
  have h := rate_limit_fixed_window ActionClass.login "k" false 0 (fun _ => none)
    (Or.inl rfl) [(false, 1), (false, 2), (false, 3), (false, 4), (false, 5)] (by decide)
  exact h.2 true 70000 (by decide)

/-- C7 (amended): on a key with an existing entry, a call at or before the
stored reset instant increments the counter and compares it against the
ceiling; only a call strictly after the reset instant resets the window to
count `1` and returns `true`. -/
theorem rate_limit_existing_entry (cls : ActionClass) (p : Bool) (now : Int) (key : String)
    (store : Store) (c : Nat) (R : Int)
    (h : store key = some { count := c, resetAt := R }) :
    (now ≤ R →
      (checkRateLimit (RATE_LIMITS cls) p now key store).1 =
        decide (c + 1 ≤ (RATE_LIMITS cls).max) ∧
      (checkRateLimit (RATE_LIMITS cls) p now key store).2 key =
        some { count := c + 1, resetAt := R }) ∧
    (R < now →
      (checkRateLimit (RATE_LIMITS cls) p now key store).1 = true ∧
      (checkRateLimit (RATE_LIMITS cls) p now key store).2 key =
        some { count := 1, resetAt := now + (RATE_LIMITS cls).windowMs }) := by
  constructor
  · intro hle
    cases p <;>
      simp [checkRateLimit, pruneStore, updateStore, h, Int.not_lt.mpr hle]
  · intro hlt
    exact checkRateLimit_start (RATE_LIMITS cls) p now key store (Or.inr ⟨_, h, hlt⟩)

/-- Witness for the amended C7: an entry with count 2, reset instant 100;
a call at time 100 increments to 3 and succeeds, a call at 101 resets. -/
theorem rate_limit_existing_entry_witness :
    ((checkRateLimit (RATE_LIMITS ActionClass.login) false 100 "k"
        (fun k => if k = "k" then some { count := 2, resetAt := 100 } else none)).1 =
      decide (2 + 1 ≤ (RATE_LIMITS ActionClass.login).max) ∧
     (checkRateLimit (RATE_LIMITS ActionClass.login) false 100 "k"
        (fun k => if k = "k" then some { count := 2, resetAt := 100 } else none)).2 "k" =
      some { count := 3, resetAt := 100 }) ∧
    ((checkRateLimit (RATE_LIMITS ActionClass.login) false 101 "k"
        (fun k => if k = "k" then some { count := 2, resetAt := 100 } else none)).1 = true ∧
     (checkRateLimit (RATE_LIMITS ActionClass.login) false 101 "k"
        (fun k => if k = "k" then some { count := 2, resetAt := 100 } else none)).2 "k" =
      some { count := 1, resetAt := 101 + (RATE_LIMITS ActionClass.login).windowMs }) := by
  refine ⟨(rate_limit_existing_entry ActionClass.login false 100 "k" _ 2 100 (by decide)).1
      (by decide),
    (rate_limit_existing_entry ActionClass.login false 101 "k" _ 2 100 (by decide)).2
      (by decide)⟩

/-- Counterexample to C7 as stated: with the login ceiling reached
(count 5) and reset instant 60000, a call whose current time equals the
reset instant does not reset the window — it returns `false` and stores
count 6 — contradicting the claim that a call at the reset instant
restarts the count at 1 and returns `true`. -/
theorem rate_limit_reset_boundary_counterexample :
    (checkRateLimit (RATE_LIMITS ActionClass.login) false 60000 "k"
        (fun k => if k = "k" then some { count := 5, resetAt := 60000 } else none)).1 = false ∧
    (checkRateLimit (RATE_LIMITS ActionClass.login) false 60000 "k"
        (fun k => if k = "k" then some { count := 5, resetAt := 60000 } else none)).2 "k" =
      some { count := 6, resetAt := 60000 } ∧
    ¬ ((checkRateLimit (RATE_LIMITS ActionClass.login) false 60000 "k"
          (fun k => if k = "k" then some { count := 5, resetAt := 60000 } else none)).1 = true ∧
       (checkRateLimit (RATE_LIMITS ActionClass.login) false 60000 "k"
          (fun k => if k = "k" then some { count := 5, resetAt := 60000 } else none)).2 "k" =
         some { count := 1, resetAt := 60000 + (RATE_LIMITS ActionClass.login).windowMs }) := by
  refine ⟨by decide, by decide, ?_⟩
  intro hc
  exact absurd hc.1 (by decide)

/-! ### Upload validation: lemmas and claims -/

/-- A basic latin character whose code is in the lowercase range is not
changed by `Char.toLower` and is not a dot. -/
theorem ofNat_lower_fixed {n : Nat} (h1 : 97 ≤ n) (h2 : n ≤ 122) :
    (Char.ofNat n).toLower = Char.ofNat n ∧ Char.ofNat n ≠ '.' := by
  interval_cases n <;> exact ⟨by decide, by decide⟩

/-- Only the dot lowercases to a dot. -/
theorem toLower_eq_dot {c : Char} (h : c.toLower = '.') : c = '.' := by
  rw [Char.toLower] at h
  split at h
  · next hc =>
      exact absurd h (ofNat_lower_fixed (by omega) (by omega)).2
  · exact h

/-- `Char.toLower` is idempotent. -/
theorem toLower_idem (c : Char) : c.toLower.toLower = c.toLower := by
  by_cases hc : c.toNat ≥ 65 ∧ c.toNat ≤ 90
  · have h1 : c.toLower = Char.ofNat (c.toNat + 32) := by
      rw [Char.toLower]
      simp [hc]
    rw [h1]
    exact (ofNat_lower_fixed (by omega) (by omega)).1
  · have h1 : c.toLower = c := by
      rw [Char.toLower]
      simp [hc]
    rw [h1, h1]

/-- Lowercasing a string twice is the same as lowercasing it once. -/
theorem toLowerStr_idem (s : String) : toLowerStr (toLowerStr s) = toLowerStr s := by
  unfold toLowerStr
  apply congrArg String.mk
  rw [show (String.mk (s.data.map Char.toLower)).data = s.data.map Char.toLower from rfl,
    List.map_map]
  apply List.map_congr_left
  intro c _
  exact toLower_idem c

/-- `lastIndexOf` leaves the accumulator untouched when the character does
not occur. -/
theorem lastIdxAux_of_not_mem (c : Char) :
    ∀ (l : List Char) (i : Nat) (acc : Int), c ∉ l → lastIdxAux c l i acc = acc
  | [], _, _, _ => rfl
  | x :: xs, i, acc, h => by
      have hx : ¬ x = c := fun hxc => h (hxc ▸ List.mem_cons_self x xs)
      rw [lastIdxAux, if_neg hx]
      exact lastIdxAux_of_not_mem c xs (i + 1) acc (fun hm => h (List.mem_cons_of_mem _ hm))

/-- On a name without a dot, the computed extension is the whole
lowercased name. -/
theorem fileExt_of_no_dot {f : String} (h : '.' ∉ f.data) : fileExt f = toLowerStr f := by
  unfold fileExt jsSubstringFrom lastIndexOfChar
  rw [lastIdxAux_of_not_mem '.' f.data 0 (-1) h]
  show toLowerStr ⟨(toLowerStr f).data.drop 0⟩ = toLowerStr f
  rw [List.drop_zero]
  exact toLowerStr_idem f

/-- Every allowed extension starts with a dot. -/
theorem allowed_head_dot : ∀ a ∈ ALLOWED_EXTENSIONS, a.data.head? = some '.' := by decide

/-- The image and video allow-lists are disjoint. -/
theorem image_video_disjoint : ∀ e ∈ ALLOWED_IMAGE_EXTENSIONS, e ∉ ALLOWED_VIDEO_EXTENSIONS := by
  decide

/-- The lowercased form of a dotless name is in neither allow-list. -/
theorem toLowerStr_not_allowed {f : String} (h : '.' ∉ f.data) :
    toLowerStr f ∉ ALLOWED_EXTENSIONS := by
  intro hmem
  have hhead := allowed_head_dot _ hmem
  rw [show (toLowerStr f).data = f.data.map Char.toLower from rfl] at hhead
  cases hf : f.data with
  | nil => rw [hf] at hhead; simp at hhead
  | cons c cs =>
      rw [hf] at hhead
      simp only [List.map_cons, List.head?_cons, Option.some.injEq] at hhead
      exact h (hf ▸ (toLower_eq_dot hhead ▸ List.mem_cons_self c cs))

/-- `List.contains` through the decidable membership proposition. -/
theorem contains_eq_decide (l : List String) (a : String) : l.contains a = decide (a ∈ l) := by
  simp [List.contains]

/-- C2 (amended): for every nonempty file name, validation succeeds exactly
when the computed (lowercased) extension is in the declared kind's
allow-list; an extension in neither list yields the unsupported-extension
error, and an extension in the other kind's list yields the type-mismatch
error.  (The empty file name instead yields the invalid-filename error,
see the counterexample.) -/
theorem validate_file_type_allow_list (f kind : String) (hf : f ≠ "") :
    (kind = "image" →
      ((validateFileType f kind).valid = true ↔ fileExt f ∈ ALLOWED_IMAGE_EXTENSIONS) ∧
      (fileExt f ∉ ALLOWED_EXTENSIONS →
        (validateFileType f kind).error =
          some ("File extension " ++ fileExt f ++ " is not allowed")) ∧
      (fileExt f ∈ ALLOWED_VIDEO_EXTENSIONS →
        (validateFileType f kind).error =
          some ("File extension " ++ fileExt f ++
            " does not match declared type \x27image\x27"))) ∧
    (kind = "video" →
      ((validateFileType f kind).valid = true ↔ fileExt f ∈ ALLOWED_VIDEO_EXTENSIONS) ∧
      (fileExt f ∉ ALLOWED_EXTENSIONS →
        (validateFileType f kind).error =
          some ("File extension " ++ fileExt f ++ " is not allowed")) ∧
      (fileExt f ∈ ALLOWED_IMAGE_EXTENSIONS →
        (validateFileType f kind).error =
          some ("File extension " ++ fileExt f ++
            " does not match declared type \x27video\x27"))) := by
  constructor
  · rintro rfl
    by_cases hI : fileExt f ∈ ALLOWED_IMAGE_EXTENSIONS
    · have hA : fileExt f ∈ ALLOWED_EXTENSIONS := List.mem_append_left _ hI
      have hV : fileExt f ∉ ALLOWED_VIDEO_EXTENSIONS := image_video_disjoint _ hI
      refine ⟨?_, fun hc => absurd hA hc, fun hc => absurd hc hV⟩
      simp +decide [validateFileType, hf, contains_eq_decide, hA, hI]
    · by_cases hA : fileExt f ∈ ALLOWED_EXTENSIONS
      · refine ⟨?_, fun hc => absurd hA hc, fun _ => ?_⟩
        · simp +decide [validateFileType, hf, contains_eq_decide, hA, hI]
        · simp +decide [validateFileType, hf, contains_eq_decide, hA, hI]
      · refine ⟨?_, fun _ => ?_, fun hc => absurd (List.mem_append_right _ hc) hA⟩
        · simp +decide [validateFileType, hf, contains_eq_decide, hA, hI]
        · simp +decide [validateFileType, hf, contains_eq_decide, hA]
  · rintro rfl
    by_cases hV : fileExt f ∈ ALLOWED_VIDEO_EXTENSIONS
    · have hA : fileExt f ∈ ALLOWED_EXTENSIONS := List.mem_append_right _ hV
      have hI : fileExt f ∉ ALLOWED_IMAGE_EXTENSIONS :=
        fun hI => image_video_disjoint _ hI hV
      refine ⟨?_, fun hc => absurd hA hc, fun hc => absurd hc hI⟩
      simp +decide [validateFileType, hf, contains_eq_decide, hA, hV]
    · by_cases hA : fileExt f ∈ ALLOWED_EXTENSIONS
      · refine ⟨?_, fun hc => absurd hA hc, fun _ => ?_⟩
        · simp +decide [validateFileType, hf, contains_eq_decide, hA, hV]
        · simp +decide [validateFileType, hf, contains_eq_decide, hA, hV]
      · refine ⟨?_, fun _ => ?_, fun hc => absurd (List.mem_append_left _ hc) hA⟩
        · simp +decide [validateFileType, hf, contains_eq_decide, hA, hV]
        · simp +decide [validateFileType, hf, contains_eq_decide, hA]

/-- Witness for the amended C2: `a.jpg` declared `image` passes, `a.mp4`
declared `image` fails with the type-mismatch error. -/
theorem validate_file_type_allow_list_witness :
    (validateFileType "a.jpg" "image").valid = true ∧
    (validateFileType "a.mp4" "image").error =
      some ("File extension " ++ fileExt "a.mp4" ++
        " does not match declared type \x27image\x27") := by
  refine ⟨?_, ?_⟩
  · exact ((validate_file_type_allow_list "a.jpg" "image" (by decide)).1 rfl).1.mpr (by decide)
  · exact ((validate_file_type_allow_list "a.mp4" "image" (by decide)).1 rfl).2.2 (by decide)

/-- Counterexample to C2 as stated: the empty file name's computed
extension is in neither allow-list, yet the returned error is the
invalid-filename error, not the unsupported-extension error the claim
prescribes for that case. -/
theorem validate_file_type_empty_counterexample :
    fileExt "" ∉ ALLOWED_EXTENSIONS ∧
    (validateFileType "" "image").error = some "Invalid filename" ∧
    (validateFileType "" "image").error ≠
      some ("File extension " ++ fileExt "" ++ " is not allowed") :=
  ⟨by decide, by decide, by decide⟩

/-- C9: an empty file name, and any file name without a dot, is always
rejected by `validateFileType`; a dotless name is rejected through the
allow-list check, its computed extension being the whole (lowercased)
name. -/
theorem validate_file_type_rejects (f kind : String) (h : f = "" ∨ '.' ∉ f.data) :
    (validateFileType f kind).valid = false ∧
    ((validateFileType f kind).error).isSome = true ∧
    (f ≠ "" → '.' ∉ f.data →
      fileExt f = toLowerStr f ∧
      (validateFileType f kind).error =
        some ("File extension " ++ fileExt f ++ " is not allowed")) := by
  by_cases hf : f = ""
  · subst hf
    exact ⟨by simp [validateFileType], by simp [validateFileType], fun hc _ => absurd rfl hc⟩
  · have hdot : '.' ∉ f.data := h.resolve_left hf
    have hext : fileExt f = toLowerStr f := fileExt_of_no_dot hdot
    have hA : fileExt f ∉ ALLOWED_EXTENSIONS := hext ▸ toLowerStr_not_allowed hdot
    refine ⟨?_, ?_, fun _ _ => ⟨hext, ?_⟩⟩ <;>
      simp +decide [validateFileType, hf, contains_eq_decide, hA]

/-- Witness for C9: the dotless name `photo` is rejected with the
allow-list error naming the whole name as the extension. -/
theorem validate_file_type_rejects_witness :
    (validateFileType "photo" "image").valid = false ∧
    (validateFileType "photo" "image").error =
      some ("File extension " ++ fileExt "photo" ++ " is not allowed") := by
  have h := validate_file_type_rejects "photo" "image" (Or.inr (by decide))
  exact ⟨h.1, (h.2.2 (by decide) (by decide)).2⟩

/-! ### Processing pipeline: lemmas and claims -/

/-- `applyExif` only writes the width, height, orientation and takenAt
fields; every other field is untouched. -/
theorem applyExif_frame (e : ExifData) (r : MediaRecord) :
    (applyExif e r).id = r.id ∧ (applyExif e r).collectionId = r.collectionId ∧
    (applyExif e r).file = r.file ∧ (applyExif e r).mediaType = r.mediaType ∧
    (applyExif e r).processingStatus = r.processingStatus ∧
    (applyExif e r).displayUrl = r.displayUrl ∧ (applyExif e r).blurUrl = r.blurUrl ∧
    (applyExif e r).thumbUrl = r.thumbUrl := by
  unfold applyExif
  repeat' split
  all_goals simp

/-- `processImage` when display and thumbnail succeed and blur fails:
both URLs are set, both files land in storage, the blur URL is untouched. -/
theorem processImage_tft (r : MediaRecord) (storage : List String) :
    processImage { displayOk := true, blurOk := false, thumbOk := true } r storage =
      ({ r with
          displayUrl := some (buildFileUrl r.collectionId r.id ("display_" ++ r.id ++ ".jpg")),
          thumbUrl := some (buildFileUrl r.collectionId r.id ("thumb_" ++ r.id ++ ".jpg")) },
       ("thumb_" ++ r.id ++ ".jpg") :: ("display_" ++ r.id ++ ".jpg") :: storage) := rfl

/-- C3: an image record whose run reaches generation with the blur step
throwing and the display and thumbnail steps succeeding still ends
`completed`, with display and thumbnail URLs set and the blur URL absent. -/
theorem image_partial_failure (w : PipelineWorld) (r : MediaRecord) (storage : List String)
    (htype : r.mediaType = "image") (hfile : r.file ≠ "") (hblur : r.blurUrl = none)
    (hw : w.img = { displayOk := true, blurOk := false, thumbOk := true }) :
    (processMediaRecord w r storage).1.processingStatus = "completed" ∧
    (processMediaRecord w r storage).1.displayUrl =
      some (buildFileUrl r.collectionId r.id ("display_" ++ r.id ++ ".jpg")) ∧
    (processMediaRecord w r storage).1.thumbUrl =
      some (buildFileUrl r.collectionId r.id ("thumb_" ++ r.id ++ ".jpg")) ∧
    (processMediaRecord w r storage).1.blurUrl = none := by
  obtain ⟨hid, hcoll, hfile1, htype1, hps1, hdisp1, hblur1, hthumb1⟩ :=
    applyExif_frame (extractExif w.rawExif) { r with processingStatus := "processing" }
  unfold processMediaRecord
  rw [if_neg (show ¬({ r with processingStatus := "processing" } : MediaRecord).file = ""
    from hfile)]
  cases hcs : generateChecksum w.checksumOut with
  | some c =>
      simp only [hcs, hw]
      rw [if_pos (show (({ applyExif (extractExif w.rawExif)
            { r with processingStatus := "processing" } with
            checksum := some c } : MediaRecord).mediaType = "image") by
        simpa [htype1] using htype)]
      rw [processImage_tft]
      simp_all
  | none =>
      simp only [hcs, hw]
      rw [if_pos (show ((applyExif (extractExif w.rawExif)
            { r with processingStatus := "processing" }).mediaType = "image") by
        simpa [htype1] using htype)]
      rw [processImage_tft]
      simp_all

/-- Witness for C3 on the sample image record. -/
theorem image_partial_failure_witness :
    (processMediaRecord sampleWorld sampleImage []).1.processingStatus = "completed" ∧
    (processMediaRecord sampleWorld sampleImage []).1.displayUrl =
      some (buildFileUrl sampleImage.collectionId sampleImage.id
        ("display_" ++ sampleImage.id ++ ".jpg")) ∧
    (processMediaRecord sampleWorld sampleImage []).1.thumbUrl =
      some (buildFileUrl sampleImage.collectionId sampleImage.id
        ("thumb_" ++ sampleImage.id ++ ".jpg")) ∧
    (processMediaRecord sampleWorld sampleImage []).1.blurUrl = none :=
  image_partial_failure sampleWorld sampleImage [] rfl (by decide) rfl rfl

/-- C4: a record with no attached source file ends `failed` with a
non-empty error message, and after the cleanup pass no file with a
derivative marker remains in storage. -/
theorem missing_file_failure (w : PipelineWorld) (r : MediaRecord) (storage : List String)
    (hfile : r.file = "") :
    (processMediaRecord w r storage).1.processingStatus = "failed" ∧
    (∃ msg, (processMediaRecord w r storage).1.processingError = some msg ∧ msg ≠ "") ∧
    (∀ f ∈ (processMediaRecord w r storage).2, isDerivedFile f = false) := by
  unfold processMediaRecord
  rw [if_pos (show ({ r with processingStatus := "processing" } : MediaRecord).file = ""
    from hfile)]
  refine ⟨rfl, ⟨"No file attached to media record", rfl, by decide⟩, ?_⟩
  intro f hf
  unfold cleanupStorage at hf
  simpa using (List.mem_filter.mp hf).2

/-- Witness for C4: a fileless record over a storage directory holding one
stale derivative and one unrelated file. -/
theorem missing_file_failure_witness :
    (processMediaRecord sampleWorld sampleNoFile ["display_r2.jpg", "keep.txt"]).1.processingStatus
      = "failed" ∧
    (∃ msg, (processMediaRecord sampleWorld sampleNoFile
        ["display_r2.jpg", "keep.txt"]).1.processingError = some msg ∧ msg ≠ "") ∧
    (∀ f ∈ (processMediaRecord sampleWorld sampleNoFile ["display_r2.jpg", "keep.txt"]).2,
      isDerivedFile f = false) :=
  missing_file_failure sampleWorld sampleNoFile ["display_r2.jpg", "keep.txt"] rfl

/-! ### Approval propagation: claims -/

/-- C5: a decision referencing an existing media record publishes it and
records the approver when approved, rejects it when rejected, and stamps
the decision's review timestamp in both cases. -/
theorem approval_propagation (find : String → Option MediaRecord) (a : Approval)
    (nowIso : String) (m : MediaRecord) (hid : a.media ≠ "")
    (hm : find a.media = some m) :
    (a.status = "approved" →
      (onApprovalAfterCreate find a nowIso).2 =
        some { m with status := "published", approvedBy := a.reviewer } ∧
      (onApprovalAfterCreate find a nowIso).1.reviewedAt = some nowIso) ∧
    (a.status = "rejected" →
      (onApprovalAfterCreate find a nowIso).2 = some { m with status := "rejected" } ∧
      (onApprovalAfterCreate find a nowIso).1.reviewedAt = some nowIso) := by
  constructor
  · intro hs
    simp +decide [onApprovalAfterCreate, hs, hid, hm]
  · intro hs
    simp +decide [onApprovalAfterCreate, hs, hid, hm]

/-- Witness for C5 on the sample decisions. -/
theorem approval_propagation_witness :
    ((onApprovalAfterCreate sampleFind sampleApproved "2024-01-01T00:00:00Z").2 =
        some { sampleMedia with status := "published", approvedBy := sampleApproved.reviewer } ∧
      (onApprovalAfterCreate sampleFind sampleApproved "2024-01-01T00:00:00Z").1.reviewedAt =
        some "2024-01-01T00:00:00Z") ∧
    ((onApprovalAfterCreate sampleFind sampleRejected "2024-01-02T00:00:00Z").2 =
        some { sampleMedia with status := "rejected" } ∧
      (onApprovalAfterCreate sampleFind sampleRejected "2024-01-02T00:00:00Z").1.reviewedAt =
        some "2024-01-02T00:00:00Z") :=
  ⟨(approval_propagation sampleFind sampleApproved "2024-01-01T00:00:00Z" sampleMedia
      (by decide) (by decide)).1 rfl,
   (approval_propagation sampleFind sampleRejected "2024-01-02T00:00:00Z" sampleMedia
      (by decide) (by decide)).2 rfl⟩

/-- C10: a rejected decision saves the referenced record with only its
publication status changed — every other field, the approver included,
keeps its previous value — and only stamps the decision's timestamp. -/
theorem rejected_only_status (find : String → Option MediaRecord) (a : Approval)
    (nowIso : String) (m : MediaRecord) (hid : a.media ≠ "")
    (hm : find a.media = some m) (hs : a.status = "rejected") :
    (onApprovalAfterCreate find a nowIso).2 = some { m with status := "rejected" } ∧
    (∀ m', (onApprovalAfterCreate find a nowIso).2 = some m' →
      m'.approvedBy = m.approvedBy) ∧
    (onApprovalAfterCreate find a nowIso).1 = { a with reviewedAt := some nowIso } := by
  have h : (onApprovalAfterCreate find a nowIso) =
      ({ a with reviewedAt := some nowIso }, some { m with status := "rejected" }) := by
    simp +decide [onApprovalAfterCreate, hs, hid, hm]
  refine ⟨by rw [h], ?_, by rw [h]⟩
  intro m' hm'
  rw [h] at hm'
  cases hm'
  rfl

/-- Witness for C10 on the sample rejected decision. -/
theorem rejected_only_status_witness :
    (onApprovalAfterCreate sampleFind sampleRejected "2024-01-03T00:00:00Z").2 =
      some { sampleMedia with status := "rejected" } ∧
    (∀ m', (onApprovalAfterCreate sampleFind sampleRejected "2024-01-03T00:00:00Z").2 =
        some m' → m'.approvedBy = sampleMedia.approvedBy) ∧
    (onApprovalAfterCreate sampleFind sampleRejected "2024-01-03T00:00:00Z").1 =
      { sampleRejected with reviewedAt := some "2024-01-03T00:00:00Z" } :=
  rejected_only_status sampleFind sampleRejected "2024-01-03T00:00:00Z" sampleMedia
    (by decide) (by decide) rfl

/-! ### EXIF extraction: claims -/

/-- C6 (code bug): the `DateTimeOriginal` conversion replaces every
colon — the regex `/:/g` is global — so the stored value keeps hyphens in
the time of day instead of the ISO-8601 colons the code's own comment
("Convert EXIF date format ... to ISO") and the spec call for. -/
theorem takenAt_normalization_bug :
    normalizeTakenAt "2020:01:02 03:04:05" = "2020-01-02T03-04-05" ∧
    (extractExif (some (rawWithTakenAt "2020:01:02 03:04:05"))).takenAt =
      some "2020-01-02T03-04-05" ∧
    "2020-01-02T03-04-05" ≠ "2020-01-02T03:04:05" :=
  ⟨by decide, by decide, by decide⟩

/-- A nonempty character list makes a nonempty string. -/
theorem ne_empty_of_contains {s : String} (h : s.data.contains ':' = true) : s ≠ "" := by
  intro he
  subst he
  exact absurd h (by decide)

/-- C8: an extracted duration given as `H:MM:SS` is stored as
`H*3600 + M*60 + S` seconds, one given as `MM:SS` as `M*60 + S` seconds,
and a bare numeric value (numeric string without a colon, or a nonzero
number) as the seconds value itself. -/
theorem duration_normalization (r : RawExif) :
    (∀ s a b c h m sec, r.duration = some (.str s) →
      jsSplit s ':' = [a, b, c] → s.data.contains ':' = true →
      parseIntJS a = some h → parseIntJS b = some m → parseFloatJS c = some sec →
      (extractExif (some r)).duration = some ((h : ℚ) * 3600 + (m : ℚ) * 60 + sec)) ∧
    (∀ s a b m sec, r.duration = some (.str s) →
      jsSplit s ':' = [a, b] → s.data.contains ':' = true →
      parseIntJS a = some m → parseFloatJS b = some sec →
      (extractExif (some r)).duration = some ((m : ℚ) * 60 + sec)) ∧
    (∀ s sec, r.duration = some (.str s) → s ≠ "" → s.data.contains ':' = false →
      parseFloatJS s = some sec → (extractExif (some r)).duration = some sec) ∧
    (∀ q, r.duration = some (.num q) → q ≠ 0 →
      (extractExif (some r)).duration = some q) := by
  refine ⟨?_, ?_, ?_, ?_⟩
  · intro s a b c h m sec hdur hsplit hcol ha hb hc
    have hmem : ':' ∈ s.data := by simpa using hcol
    simp [extractExif, hdur, truthyDur, ne_empty_of_contains hcol, parseDurVal, hmem,
      colonToSeconds, hsplit, ha, hb, hc]
  · intro s a b m sec hdur hsplit hcol ha hb
    have hmem : ':' ∈ s.data := by simpa using hcol
    simp [extractExif, hdur, truthyDur, ne_empty_of_contains hcol, parseDurVal, hmem,
      colonToSeconds, hsplit, ha, hb]
  · intro s sec hdur hne hcol hp
    have hnmem : ':' ∉ s.data := by simpa using hcol
    simp [extractExif, hdur, truthyDur, hne, parseDurVal, hnmem, hp]
  · intro q hdur hq
    simp [extractExif, hdur, truthyDur, hq, parseDurVal]

/-- Witness for C8: `0:00:30` gives 30 s, `02:05` gives 125 s, `30.5`
gives 30.5 s, and the number 12 gives 12 s. -/
theorem duration_normalization_witness :
    (extractExif (some (rawWithDuration (.str "0:00:30")))).duration =
      some ((0 : ℚ) * 3600 + (0 : ℚ) * 60 + 30) ∧
    (extractExif (some (rawWithDuration (.str "02:05")))).duration =
      some ((2 : ℚ) * 60 + 5) ∧
    (extractExif (some (rawWithDuration (.str "30.5")))).duration =
      some ((61 : ℚ) / 2) ∧
    (extractExif (some (rawWithDuration (.num 12)))).duration = some 12 := by
  refine ⟨?_, ?_, ?_, ?_⟩
  · exact (duration_normalization _).1 "0:00:30" "0" "00" "30" 0 0 30 rfl (by decide)
      (by decide) (by decide) (by decide)
      (by simp +decide [parseFloatJS, takeDigits, digitVal, natOfDigits, Char.toNat])
  · exact (duration_normalization _).2.1 "02:05" "02" "05" 2 5 rfl (by decide) (by decide)
      (by decide)
      (by simp +decide [parseFloatJS, takeDigits, digitVal, natOfDigits, Char.toNat])
  · exact (duration_normalization _).2.2.1 "30.5" ((61 : ℚ) / 2) rfl (by decide) (by decide)
      (by simp +decide [parseFloatJS, takeDigits, digitVal, natOfDigits, Char.toNat]
          norm_num [UInt32.size])
  · exact (duration_normalization _).2.2.2 12 rfl (by norm_num)

end Spomienka
